import Mathlib

/-!
Verification development for the netflix-prediction dashboard repository.

The file shallowly embeds the two pieces of logic the specification
describes:

* the trend-series fetcher `get_netflix_trends` of `src/utils/trends.py`,
  batching keyword lists over a 5-keyword-per-request API and stitching
  the batches together through a shared anchor series;
* the snapshot-table selector shared by `get_top10_predictions` and
  `get_title_viral_rate` of `src/utils/bigquery_data.py`;
* the time-boxed memoization wrapper applied to the query functions.

A pandas DataFrame is modelled as a list of timestamps (the row index)
together with named columns; a column is a total function from timestamps
to rationals, which renders the index-aligned operations of the source
(pointwise multiplication, column concatenation, column reindexing) as
plain function operations.  The external pytrends API is a parameter:
a function from a keyword batch and a timeframe string to either an
error (a raised exception) or a DataFrame.  Exception flow of the Python
`try`/`except` blocks is modelled with `Except`.
-/

/-- A pandas DataFrame: a row index of timestamps and named columns.
A column is total on timestamps, so index alignment during `pd.concat`
is implicit.  Values are rationals (the trend index is numeric). -/
structure DF where
  idx : List Nat
  cols : List (String × (Nat → ℚ))

/-- The column labels, in order (`df.columns`). -/
def DF.colNames (d : DF) : List String := d.cols.map Prod.fst

/-- `df.empty`: true when either axis has length zero. -/
def DF.empty (d : DF) : Bool := d.idx.isEmpty || d.cols.isEmpty

/-- `df.drop(columns=[c], errors='ignore')`: remove every column labelled `c`. -/
def DF.dropCol (d : DF) (c : String) : DF :=
  ⟨d.idx, d.cols.filter (fun p => p.1 != c)⟩

/-- `df[c]` as an optional lookup: the first column labelled `c`. -/
def DF.getCol? (d : DF) (c : String) : Option (Nat → ℚ) :=
  (d.cols.find? (fun p => p.1 == c)).map Prod.snd

/-- `df.multiply(s)`: scale every value of every column. -/
def DF.multiply (d : DF) (s : ℚ) : DF :=
  ⟨d.idx, d.cols.map (fun p => (p.1, fun t => p.2 t * s))⟩

/-- `pd.concat([a, b], axis=1)`: union of the row indexes (keeping `a`'s
order first) and the columns of both tables. -/
def DF.concatCols (a b : DF) : DF :=
  ⟨a.idx ++ b.idx.filter (fun t => !(a.idx.contains t)), a.cols ++ b.cols⟩

/-- Lines 89-90 of `trends.py`: the per-column coercion loop
`df_total[col] = pd.to_numeric(df_total[col], errors='coerce').fillna(0)`.
Label indexing `df_total[col]` selects every column carrying that label:
when a label is duplicated the selection is a DataFrame, and
`pd.to_numeric` raises `TypeError` (propagating to the `except` handler
of line 95).  With unique labels each selection is a Series and, on this
rational-valued model, the coercion and the `NaN → 0` filling are the
identity on each column. -/
def DF.coerceNumericE (d : DF) : Except String DF :=
  if d.colNames.Nodup then .ok ⟨d.idx, d.cols.map (fun p => (p.1, p.2))⟩
  else .error "TypeError"

/-- `df.reindex(columns=ks, fill_value=0)`: one column per requested label,
in the requested order; a label the table lacks becomes an all-zero column. -/
def DF.reindexCols (d : DF) (ks : List String) : DF :=
  ⟨d.idx, ks.map (fun k => (k, (d.getCol? k).getD (fun _ => 0)))⟩

/-- A pandas Series: the owning table's row index plus the values. -/
structure Series where
  idx : List Nat
  val : Nat → ℚ

/-- `series.mean()`: arithmetic mean of the values over the series' index. -/
def Series.mean (s : Series) : ℚ :=
  (s.idx.map s.val).sum / (s.idx.length : ℚ)

/-- Lines 71-75 of `trends.py`: the cross-batch scale factor.  When the
batch's anchor mean is zero the scale is defined to be `0` (avoiding a
division by zero); otherwise it is `baseline mean / batch anchor mean`. -/
def batchScale (baselineMean batchAnchorMean : ℚ) : ℚ :=
  if batchAnchorMean = 0 then 0 else baselineMean / batchAnchorMean

/-- Lines 77-79 of `trends.py`: multiply every column of the batch by the
scale factor, then drop the anchor column before merging. -/
def scaleBatchDF (df : DF) (anchor : String) (s : ℚ) : DF :=
  (df.multiply s).dropCol anchor

/-- Line 24 of `trends.py`: the default keyword list used when the caller
passes `None`. -/
def defaultKeywords : List String :=
  ["Stranger Things", "Wednesday", "Squid Game", "The Crown", "Bridgerton"]

/-- Lines 43-48 of `trends.py`: the while-loop producing the batches after
the first.  Each batch is the anchor followed by the next at most four
keywords not yet used. -/
def restBatches (anchor : String) : List String → List (List String)
  | [] => []
  | [a] => [[anchor, a]]
  | [a, b] => [[anchor, a, b]]
  | [a, b, c] => [[anchor, a, b, c]]
  | a :: b :: c :: d :: rest => [anchor, a, b, c, d] :: restBatches anchor rest

/-- Lines 39-48 of `trends.py`: the full batch list for the over-5-keywords
path — the first five keywords, then anchor-led batches of the remainder. -/
def trendBatches (keywords : List String) : List (List String) :=
  keywords.take 5 :: restBatches (keywords.headD "") (keywords.drop 5)

/-- The loop state of lines 50-51 of `trends.py`: the accumulated table and
the baseline anchor series recorded from the first batch. -/
structure FetchState where
  dfTotal : Option DF
  baseline : Option Series

/-- The external pytrends call: build a payload from a keyword batch and a
timeframe string and read `interest_over_time()`.  An `Except.error`
models a raised exception (network, quota, malformed response). -/
abbrev TrendApi := List String → String → Except String DF

/-- Lines 53-82 of `trends.py`: the body of the `for i, batch in
enumerate(batches)` loop for one batch.  An empty result skips the batch;
the first batch becomes the base table and records the anchor series; a
later batch lacking the anchor column (or arriving with no baseline) is
skipped; otherwise the batch is rescaled by the anchor-mean ratio, its
anchor column dropped, and the result concatenated onto the base table. -/
def stepBatch (api : TrendApi) (anchor : String) (st : FetchState)
    (ib : Nat × List String) : Except String FetchState :=
  match api ib.2 "now 7-d" with
  | .error e => .error e
  | .ok df0 =>
    if df0.empty then .ok st
    else
      let df := df0.dropCol "isPartial"
      if ib.1 = 0 then
        .ok ⟨some df, (df.getCol? anchor).map (fun f => ⟨df.idx, f⟩)⟩
      else
        match df.getCol? anchor, st.baseline with
        | some fa, some bl =>
          match st.dfTotal with
          | none => .error "unsupported operand"
          | some dt =>
            let scale := batchScale bl.mean (Series.mean ⟨df.idx, fa⟩)
            .ok ⟨some (dt.concatCols (scaleBatchDF df anchor scale)), st.baseline⟩
        | _, _ => .ok st

/-- Lines 23-93 of `trends.py`: the body of `get_netflix_trends` inside the
`try` block.  `Except.error` is an exception that would propagate to the
`except` handler.  A `None` keyword argument selects the default list.
Both payload calls pass the literal timeframe `"now 7-d"` (lines 32, 54). -/
def get_netflix_trends_E (api : TrendApi) (keywordsOpt : Option (List String)) :
    Except String (Option DF) :=
  let keywords := keywordsOpt.getD defaultKeywords
  if keywords.length ≤ 5 then
    match api keywords "now 7-d" with
    | .error e => .error e
    | .ok interest =>
      if interest.empty then .ok none
      else .ok (some (interest.dropCol "isPartial"))
  else
    let anchor := keywords.headD ""
    match (trendBatches keywords).enum.foldlM (stepBatch api anchor) ⟨none, none⟩ with
    | .error e => .error e
    | .ok st =>
      match st.dfTotal with
      | none => .ok none
      | some d =>
        if d.empty then .ok none
        else
          match d.coerceNumericE with
          | .error e => .error e
          | .ok d2 => .ok (some (d2.reindexCols keywords))

/-- Lines 26-97 of `trends.py`: `get_netflix_trends` with its `except`
handler — any exception is caught, reported via `st.error`, and the
function returns `None`. -/
def get_netflix_trends (api : TrendApi) (keywordsOpt : Option (List String)) :
    Option DF :=
  match get_netflix_trends_E api keywordsOpt with
  | .ok v => v
  | .error _ => none

/-- The four relative time ranges offered by the custom-query UI of
`src/pages/2_..._Google_Trends.py` and `display_trends_section`
(lines 218-227 of `trends.py`). -/
def supportedTimeframes : List String :=
  ["now 7-d", "today 1-m", "today 3-m", "today 12-m"]

/-! ## Snapshot table selector (`src/utils/bigquery_data.py`)

`get_top10_predictions` (lines 29-87) and `get_title_viral_rate`
(lines 320-372) share one table-selection routine, embedded here once.
The BigQuery client is a parameter: `list_tables` either fails (an
exception — permission error etc.) or yields the table ids of the
dataset, and `get_table` success is a boolean existence probe.  The
candidate dates of lines 62-74 (the explicit or current date walked
backwards by `datetime.timedelta`) are supplied as a parameter, since
calendar arithmetic lives in the external `datetime` library. -/

/-- Line 15 of `bigquery_data.py`. -/
def PROJECT_ID : String := "data-model-final-project"

/-- Line 17 of `bigquery_data.py`. -/
def DATASET_PREDICTIONS : String := "predictions"

/-- Line 38 of `bigquery_data.py`: `f"{PROJECT_ID}.{DATASET_PREDICTIONS}"`. -/
def datasetRef : String := PROJECT_ID ++ "." ++ DATASET_PREDICTIONS

/-- The characters of the table-name pattern of line 45. -/
def predPat : List Char := "prediction_".toList

/-- Python's `tid.replace('prediction_', '')` (line 46): remove every
non-overlapping occurrence of the 11-character pattern, left to right. -/
def removePredOcc : List Char → List Char
  | [] => []
  | 'p' :: 'r' :: 'e' :: 'd' :: 'i' :: 'c' :: 't' :: 'i' :: 'o' :: 'n' :: '_' :: rest =>
    removePredOcc rest
  | c :: rest => c :: removePredOcc rest

/-- Gregorian leap-year rule, as validated by `datetime`. -/
def isLeapYear (y : Nat) : Bool :=
  (y % 4 == 0 && y % 100 != 0) || (y % 400 == 0)

/-- Days in a month, as validated by `datetime`. -/
def daysInMonth (y m : Nat) : Nat :=
  if m = 2 then (if isLeapYear y then 29 else 28)
  else if m = 4 ∨ m = 6 ∨ m = 9 ∨ m = 11 then 30 else 31

/-- Digits to a natural number, most significant first. -/
def digitsToNat (cs : List Char) : Nat :=
  cs.foldl (fun acc c => acc * 10 + (c.toNat - 48)) 0

/-- Line 49 of `bigquery_data.py`:
`datetime.datetime.strptime(suffix, '%Y%m%d')`, modelled for the
8-character suffixes that pass the length filter of line 45: the parse
succeeds exactly on eight digits forming a calendar-valid date, and the
result is encoded as `y*10000 + m*100 + d` (so that the `dt > latest`
comparison of line 50 is the numeric order). -/
def parseYYYYMMDD (cs : List Char) : Option Nat :=
  if cs.length = 8 ∧ cs.all Char.isDigit then
    let y := digitsToNat (cs.take 4)
    let m := digitsToNat ((cs.drop 4).take 2)
    let d := digitsToNat (cs.drop 6)
    if 1 ≤ y ∧ 1 ≤ m ∧ m ≤ 12 ∧ 1 ≤ d ∧ d ≤ daysInMonth y m then
      some (y * 10000 + m * 100 + d)
    else none
  else none

/-- Lines 44-49: a table id contributes a date when it starts with
`prediction_`, is long enough to carry an 8-character suffix, and the
suffix (the id with every `prediction_` occurrence removed) parses as a
date; otherwise it is ignored. -/
def datedCandidate (tid : String) : Option Nat :=
  if predPat.isPrefixOf tid.toList ∧ 19 ≤ tid.toList.length then
    parseYYYYMMDD (removePredOcc tid.toList)
  else none

/-- One iteration of the enumeration loop of lines 42-54: keep the
so-far-latest (date, qualified name) pair, replacing it when the current
id parses to a strictly later date (`dt > latest_date`, so the first of
equal dates wins). -/
def pickStep (acc : Option (Nat × String)) (tid : String) : Option (Nat × String) :=
  match datedCandidate tid with
  | none => acc
  | some dt =>
    match acc with
    | none => some (dt, datasetRef ++ "." ++ tid)
    | some p => if p.1 < dt then some (dt, datasetRef ++ "." ++ tid) else some p

/-- Lines 40-55: the enumeration fold keeping the latest parseable date
together with the fully qualified table name `f"{dataset_ref}.{tid}"`. -/
def pickLatestDated (tids : List String) : Option (Nat × String) :=
  tids.foldl pickStep none

/-- Python truthiness of the `date_str` argument: `not date_str` is true
for `None` and for the empty string. -/
def dateStrFalsy (dateStr : Option String) : Bool :=
  (dateStr.getD "").isEmpty

/-- Lines 33-87 of `bigquery_data.py` (and identically lines 324-372): the
snapshot-table selection.  Start from the `prediction_latest` alias; when
no date string is given and the look-back is exactly zero, try the
enumeration strategy (silently keeping the alias when listing fails or no
id parses); when a date string is given or the look-back is positive,
probe the candidate dates most-recent-first and take the first table that
exists, keeping the earlier choice when none does. -/
def selectPredictionTable (dateStr : Option String) (lookbackDays : Int)
    (listTablesResult : Except Unit (List String)) (tableExists : String → Bool)
    (datesToTry : List String) : String :=
  let t0 := datasetRef ++ ".prediction_latest"
  let t1 :=
    if dateStrFalsy dateStr ∧ lookbackDays = 0 then
      match listTablesResult with
      | .error _ => t0
      | .ok tids =>
        match pickLatestDated tids with
        | some p => p.2
        | none => t0
    else t0
  if dateStrFalsy dateStr = false ∨ 0 < lookbackDays then
    match datesToTry.find? (fun d => tableExists (datasetRef ++ ".prediction_" ++ d)) with
    | some d => datasetRef ++ ".prediction_" ++ d
    | none => t1
  else t1

/-! ## Time-boxed memoization (`st.cache_data(ttl=...)`)

Modelled from the spec: the `st.cache_data` decorator is external
library code (streamlit), described by the specification as a
process-wide memoization keyed by the function arguments with a fixed
per-function time-to-live, entries expiring passively and recomputed
synchronously on the next call after expiry.  The cache is a list of
(arguments, value, store-time) entries; the third result component
counts the underlying fetches performed by the call. -/

/-- Look up a live cache entry: the most recent entry for the arguments,
provided its age is still below the time-to-live. -/
def cacheLookup {α β : Type} [DecidableEq α] (cache : List (α × β × Nat))
    (ttl now : Nat) (a : α) : Option β :=
  match cache.find? (fun e => decide (e.1 = a)) with
  | none => none
  | some e => if now < e.2.2 + ttl then some e.2.1 else none

/-- One call through the memoization wrapper: a live entry is returned
without fetching; otherwise the wrapped function runs once and the result
is stored. -/
def cachedCall {α β : Type} [DecidableEq α] (f : α → β) (ttl : Nat)
    (cache : List (α × β × Nat)) (now : Nat) (a : α) :
    β × List (α × β × Nat) × Nat :=
  match cacheLookup cache ttl now a with
  | some v => (v, cache, 0)
  | none => (f a, (a, f a, now) :: cache, 1)

/-- Line 12 of `trends.py`: `@st.cache_data(ttl=3600)`. -/
def get_netflix_trends_ttl : Nat := 3600

/-- Line 100 of `trends.py`: `@st.cache_data(ttl=1800)`. -/
def get_show_trend_score_ttl : Nat := 1800

/-- Line 21 of `bigquery_data.py`: `@st.cache_data(ttl=3600)`. -/
def get_top10_predictions_ttl : Nat := 3600

/-- Line 261 of `bigquery_data.py`: `@st.cache_data(ttl=86400)`. -/
def get_model_performance_ttl : Nat := 86400

/-! ## Helper lemmas on the DataFrame operations -/

theorem getCol?_multiply (d : DF) (s : ℚ) (n : String) :
    (d.multiply s).getCol? n = (d.getCol? n).map (fun g => fun t => g t * s) := by
  cases d with
  | mk idx cols =>
    induction cols with
    | nil => rfl
    | cons p ps ih =>
      simp only [DF.multiply, DF.getCol?, List.map_cons, List.find?_cons] at ih ⊢
      cases h : (p.1 == n) with
      | true => simp [h]
      | false => simpa [h] using ih

theorem getCol?_dropCol (d : DF) (c n : String) (h : n ≠ c) :
    (d.dropCol c).getCol? n = d.getCol? n := by
  cases d with
  | mk idx cols =>
    induction cols with
    | nil => rfl
    | cons p ps ih =>
      simp only [DF.dropCol, DF.getCol?, List.filter_cons] at ih ⊢
      by_cases hc : p.1 = c
      · have h1 : (p.1 != c) = false := by simp [hc]
        have h2 : (p.1 == n) = false := by simp [hc]; exact fun he => h he.symm
        simpa [h1, h2] using ih
      · have h1 : (p.1 != c) = true := by simp [hc]
        cases h2 : (p.1 == n) with
        | true => simp [h1, List.find?_cons, h2]
        | false => simpa [h1, List.find?_cons, h2] using ih

theorem getCol?_reindexCols (d : DF) (ks : List String) (k : String) (hk : k ∈ ks) :
    (d.reindexCols ks).getCol? k = some ((d.getCol? k).getD (fun _ => 0)) := by
  induction ks with
  | nil => cases hk
  | cons k0 ks ih =>
    simp only [DF.reindexCols, DF.getCol?, List.map_cons, List.find?_cons] at ih ⊢
    by_cases h : k0 = k
    · simp [h]
    · have hb : (k0 == k) = false := by simp [h]
      have hm : k ∈ ks := by
        rcases List.mem_cons.mp hk with h1 | h1
        · exact absurd h1.symm h
        · exact h1
      simpa [hb] using ih hm

theorem colNames_reindexCols (d : DF) (ks : List String) :
    (d.reindexCols ks).colNames = ks := by
  simp only [DF.reindexCols, DF.colNames, List.map_map]
  induction ks with
  | nil => rfl
  | cons k0 ks ih => simpa using ih

/-! ## Claims C5, C6: the cross-batch rescaling -/

/-- Claim C5: for every subsequent batch whose anchor-column mean is zero,
the scale factor is defined to be `0`, so every merged (scaled, non-anchor)
value of that batch is `0` — no division by zero is performed and no `NaN`
arises.  Stated on `batchScale`/`scaleBatchDF`, the exact definitions the
fetcher applies to such a batch before merging (lines 70-82 of
`trends.py`). -/
theorem c5_zero_anchor_mean (df : DF) (anchor : String) (baselineMean : ℚ)
    (n : String) (g : Nat → ℚ) (hn : n ≠ anchor) (hg : df.getCol? n = some g) :
    batchScale baselineMean 0 = 0 ∧
    (scaleBatchDF df anchor (batchScale baselineMean 0)).getCol? n
      = some (fun _ => 0) := by
  have h0 : batchScale baselineMean 0 = 0 := by simp [batchScale]
  refine ⟨h0, ?_⟩
  rw [h0]
  unfold scaleBatchDF
  rw [getCol?_dropCol _ _ _ hn, getCol?_multiply, hg]
  simp

/-- Concrete instance for `c5_zero_anchor_mean`: a batch table whose
non-anchor column `"B"` is constantly `5` collapses to the all-zero column
once the anchor mean is zero. -/
def dfW5 : DF := ⟨[0], [("A", fun _ => 2), ("B", fun _ => 5)]⟩

theorem c5_zero_anchor_mean_witness :
    batchScale 7 0 = 0 ∧
    (scaleBatchDF dfW5 "A" (batchScale 7 0)).getCol? "B" = some (fun _ => 0) :=
  c5_zero_anchor_mean dfW5 "A" 7 "B" (fun _ => 5) (by decide) rfl

/-- Claim C6 (amended): for a subsequent batch whose anchor mean equals
batch 1's anchor mean *and is nonzero*, the scale factor is `1` and the
batch's non-anchor columns pass through the rescaling unchanged. -/
theorem c6_amended_scale_one (m : ℚ) (hm : m ≠ 0) (df : DF) (anchor n : String)
    (g : Nat → ℚ) (hn : n ≠ anchor) (hg : df.getCol? n = some g) :
    batchScale m m = 1 ∧
    (scaleBatchDF df anchor (batchScale m m)).getCol? n = some g := by
  have h1 : batchScale m m = 1 := by
    simp only [batchScale, if_neg hm]
    exact div_self hm
  refine ⟨h1, ?_⟩
  rw [h1]
  unfold scaleBatchDF
  rw [getCol?_dropCol _ _ _ hn, getCol?_multiply, hg]
  simp

/-- Concrete instance for `c6_amended_scale_one`: equal nonzero anchor
means leave the `"B"` column untouched. -/
def dfW6 : DF := ⟨[0], [("A", fun _ => 2), ("B", fun _ => 4)]⟩

theorem c6_amended_scale_one_witness :
    batchScale 2 2 = 1 ∧
    (scaleBatchDF dfW6 "A" (batchScale 2 2)).getCol? "B" = some (fun _ => 4) :=
  c6_amended_scale_one 2 (by norm_num) dfW6 "A" "B" (fun _ => 4) (by decide) rfl

/-- Claim C6, counterexample: when the batch anchor mean *equals* the
baseline anchor mean but both are zero, the code takes the
division-guard branch, so the scale factor is `0`, not `1`, and the
batch's values do not pass through unchanged: the constant-1 column
`"B"` is rescaled to `0`. -/
def sZeroC6 : Series := ⟨[0], fun _ => 0⟩

/-- The batch table of the counterexample: anchor `"A"` all zero, `"B"`
constantly `1`. -/
def dfC6 : DF := ⟨[0], [("A", fun _ => 0), ("B", fun _ => 1)]⟩

theorem c6_counterexample :
    Series.mean sZeroC6 = 0
    ∧ batchScale (Series.mean sZeroC6) (Series.mean sZeroC6) = 0
    ∧ batchScale (Series.mean sZeroC6) (Series.mean sZeroC6) ≠ 1
    ∧ ((scaleBatchDF dfC6 "A"
          (batchScale (Series.mean sZeroC6) (Series.mean sZeroC6))).getCol? "B").map
        (fun f => f 0) = some 0
    ∧ (dfC6.getCol? "B").map (fun f => f 0) = some 1 := by
  have hm : Series.mean sZeroC6 = 0 := by
    simp [Series.mean, sZeroC6]
  have hs : batchScale (Series.mean sZeroC6) (Series.mean sZeroC6) = 0 := by
    rw [hm]; simp [batchScale]
  have hB : dfC6.getCol? "B" = some (fun _ => 1) := rfl
  refine ⟨hm, hs, by rw [hs]; norm_num, ?_, rfl⟩
  rw [hs]
  unfold scaleBatchDF
  rw [getCol?_dropCol _ _ _ (by decide), getCol?_multiply, hB]
  simp

/-! ## Claim C7: exceptions are caught and become `None` -/

/-- Claim C7: the fetcher never lets an exception escape — whenever the
body of `get_netflix_trends` raises (any failure of the external API
call), the `except` handler of lines 95-97 reports the message and the
function returns `None`. -/
theorem c7_catch_returns_none (api : TrendApi) (keywordsOpt : Option (List String))
    (e : String) (h : get_netflix_trends_E api keywordsOpt = .error e) :
    get_netflix_trends api keywordsOpt = none := by
  unfold get_netflix_trends
  rw [h]

/-- An API whose every call raises, as on a network failure. -/
def apiErrW7 : TrendApi := fun _ _ => .error "network error"

theorem c7_catch_returns_none_witness :
    get_netflix_trends_E apiErrW7 (some ["A"]) = .error "network error"
    ∧ get_netflix_trends apiErrW7 (some ["A"]) = none :=
  ⟨rfl, c7_catch_returns_none apiErrW7 (some ["A"]) "network error" rfl⟩

/-! ## Claim C9: time-boxed memoization -/

/-- Claim C9: for the TTL memoization wrapper (modelled from the spec;
`st.cache_data` is external library code), a call that misses the cache
fetches exactly once and stores the value; a second call with the same
arguments strictly within the time-to-live returns the identical value
with zero fetches; the first call at or after expiry triggers exactly one
refetch.  The per-function TTLs are the ones declared in the source:
1 hour for the trend/prediction queries, 30 minutes for the single-title
trend score, 24 hours for the static model-performance figures. -/
theorem c9_cache_ttl {α β : Type} [DecidableEq α] (f : α → β) (ttl : Nat)
    (c0 : List (α × β × Nat)) (t1 t2 t3 : Nat) (a : α)
    (h0 : cacheLookup c0 ttl t1 a = none)
    (h2 : t2 < t1 + ttl) (h3 : t1 + ttl ≤ t3) :
    cachedCall f ttl c0 t1 a = (f a, (a, f a, t1) :: c0, 1)
    ∧ cachedCall f ttl ((a, f a, t1) :: c0) t2 a = (f a, (a, f a, t1) :: c0, 0)
    ∧ cachedCall f ttl ((a, f a, t1) :: c0) t3 a
        = (f a, (a, f a, t3) :: (a, f a, t1) :: c0, 1)
    ∧ get_netflix_trends_ttl = 60 * 60
    ∧ get_top10_predictions_ttl = 60 * 60
    ∧ get_show_trend_score_ttl = 30 * 60
    ∧ get_model_performance_ttl = 24 * 60 * 60 := by
  have hhead : cacheLookup ((a, f a, t1) :: c0) ttl t2 a = some (f a) := by
    simp [cacheLookup, List.find?_cons, h2]
  have hstale : cacheLookup ((a, f a, t1) :: c0) ttl t3 a = none := by
    simp [cacheLookup, List.find?_cons, Nat.not_lt.mpr h3]
  refine ⟨?_, ?_, ?_, rfl, rfl, rfl, rfl⟩
  · unfold cachedCall
    rw [h0]
  · unfold cachedCall
    rw [hhead]
  · unfold cachedCall
    rw [hstale]

theorem c9_cache_ttl_witness :
    cachedCall Nat.succ 3600 ([] : List (Nat × Nat × Nat)) 0 0 = (1, [(0, 1, 0)], 1)
    ∧ cachedCall Nat.succ 3600 [(0, 1, 0)] 1 0 = (1, [(0, 1, 0)], 0)
    ∧ cachedCall Nat.succ 3600 [(0, 1, 0)] 3600 0 = (1, [(0, 1, 3600), (0, 1, 0)], 1) := by
  have h := c9_cache_ttl Nat.succ 3600 [] 0 1 3600 0 rfl (by decide) (by decide)
  exact ⟨h.1, h.2.1, h.2.2.1⟩

/-! ## Claim C10: a later batch that cannot be anchored is skipped -/

/-- Claim C10: in the multi-batch path, a later batch (`i > 0`) whose API
result is non-empty but — after dropping `isPartial` — lacks the anchor
column, or which arrives while no baseline anchor series was recorded, is
skipped entirely: the loop state is returned unchanged, so none of its
values are merged; and a keyword that consequently never reached the
accumulated table comes out of the final reindexing as an all-zero
column. -/
theorem c10_skip_batch :
    (∀ (api : TrendApi) (anchor : String) (st : FetchState) (i : Nat)
        (batch : List String) (df0 : DF),
      0 < i → api batch "now 7-d" = .ok df0 → df0.empty = false →
      (st.baseline = none ∨ (df0.dropCol "isPartial").getCol? anchor = none) →
      stepBatch api anchor st (i, batch) = .ok st)
    ∧ (∀ (d : DF) (ks : List String) (k : String),
        k ∈ ks → d.getCol? k = none →
        (d.reindexCols ks).getCol? k = some (fun _ => (0 : ℚ))) := by
  constructor
  · intro api anchor st i batch df0 hi hapi hemp hskip
    unfold stepBatch
    simp only [hapi, hemp, Bool.false_eq_true, if_false]
    have hi0 : ¬ (i = 0) := Nat.pos_iff_ne_zero.mp hi
    simp only [hi0, if_false]
    rcases hskip with h | h
    · rw [h]
      cases (df0.dropCol "isPartial").getCol? anchor <;> rfl
    · rw [h]
  · intro d ks k hk hnone
    rw [getCol?_reindexCols d ks k hk, hnone]
    rfl

/-- The accumulated table of the `c10_skip_batch` witness. -/
def dfTW10 : DF := ⟨[0], [("A", fun _ => 1)]⟩

/-- A later batch's result that is non-empty but has no anchor column. -/
def dfNoAnchor10 : DF := ⟨[0], [("F", fun _ => 3)]⟩

/-- API used by the `c10_skip_batch` witness. -/
def apiW10 : TrendApi := fun _ _ => .ok dfNoAnchor10

theorem c10_skip_batch_witness :
    stepBatch apiW10 "A" ⟨some dfTW10, none⟩ (1, ["A", "F"]) = .ok ⟨some dfTW10, none⟩
    ∧ (dfTW10.reindexCols ["A", "F"]).getCol? "F" = some (fun _ => (0 : ℚ)) :=
  ⟨c10_skip_batch.1 apiW10 "A" ⟨some dfTW10, none⟩ 1 ["A", "F"] dfNoAnchor10
      (by decide) rfl rfl (Or.inl rfl),
   c10_skip_batch.2 dfTW10 ["A", "F"] "F" (by decide) rfl⟩

/-! ## Claim C2: the batch construction -/

/-- Closed form of the while-loop: the i-th later batch is the anchor
followed by the i-th 4-element chunk of the remaining keywords. -/
theorem restBatches_eq_map (a : String) :
    ∀ l : List String,
      restBatches a l
        = (List.range ((l.length + 3) / 4)).map (fun i => a :: (l.drop (4 * i)).take 4)
  | [] => by simp [restBatches]
  | [x] => by simp [restBatches, List.range_succ_eq_map]
  | [x, y] => by simp [restBatches, List.range_succ_eq_map]
  | [x, y, z] => by simp [restBatches, List.range_succ_eq_map]
  | x :: y :: z :: w :: rest => by
    have ih := restBatches_eq_map a rest
    have hn : (((x :: y :: z :: w :: rest).length) + 3) / 4 = (rest.length + 3) / 4 + 1 := by
      simp only [List.length_cons]
      have h4 : rest.length + 1 + 1 + 1 + 1 + 3 = (rest.length + 3) + 4 := by omega
      rw [h4, Nat.add_div_right _ (by norm_num)]
    rw [hn, List.range_succ_eq_map, List.map_cons, List.map_map]
    simp only [restBatches]
    congr 1

theorem restBatches_length (a : String) (l : List String) :
    (restBatches a l).length = (l.length + 3) / 4 := by
  rw [restBatches_eq_map]
  simp

theorem restBatches_get (a : String) (l : List String) (i : Nat) (b : List String)
    (h : (restBatches a l)[i]? = some b) :
    b = a :: (l.drop (4 * i)).take 4 := by
  rw [restBatches_eq_map] at h
  rcases Nat.lt_or_ge i ((l.length + 3) / 4) with hi | hi
  · rw [List.getElem?_map, List.getElem?_range hi] at h
    simpa using h.symm
  · rw [List.getElem?_eq_none] at h
    · cases h
    · simpa using hi

theorem restBatches_cover (a : String) :
    ∀ l : List String, ∀ x ∈ l, ∃ b ∈ restBatches a l, x ∈ b
  | [] => by simp
  | [y] => by
    intro x hx
    exact ⟨[a, y], by simp [restBatches], by simp at hx; simp [hx]⟩
  | [y, z] => by
    intro x hx
    exact ⟨[a, y, z], by simp [restBatches], by simp at hx; rcases hx with h | h <;> simp [h]⟩
  | [y, z, w] => by
    intro x hx
    refine ⟨[a, y, z, w], by simp [restBatches], ?_⟩
    simp at hx; rcases hx with h | h | h <;> simp [h]
  | y :: z :: w :: v :: rest => by
    intro x hx
    simp only [List.mem_cons] at hx
    rcases hx with h | h | h | h | h
    · exact ⟨[a, y, z, w, v], by simp [restBatches], by simp [h]⟩
    · exact ⟨[a, y, z, w, v], by simp [restBatches], by simp [h]⟩
    · exact ⟨[a, y, z, w, v], by simp [restBatches], by simp [h]⟩
    · exact ⟨[a, y, z, w, v], by simp [restBatches], by simp [h]⟩
    · obtain ⟨b, hb, hxb⟩ := restBatches_cover a rest x h
      exact ⟨b, by simp [restBatches, hb], hxb⟩

/-- Claim C2: for a keyword list of length `N > 5` the fetcher builds
`1 + ceil((N-5)/4)` batches (written with the natural-number ceiling
division `(N-5+3)/4`); batch 1 is `keywords[0:5]`; every later batch is
the anchor `keywords[0]` followed by the next at most 4 previously unused
keywords; every batch has at most 5 keywords; and every input keyword
appears in at least one batch. -/
theorem c2_batching (kw : List String) (h : 5 < kw.length) :
    (trendBatches kw).length = 1 + (kw.length - 5 + 3) / 4
    ∧ (trendBatches kw)[0]? = some (kw.take 5)
    ∧ (∀ i b, (trendBatches kw)[i]? = some b → 0 < i →
        b = kw.headD "" :: (kw.drop (5 + 4 * (i - 1))).take 4)
    ∧ (∀ b ∈ trendBatches kw, b.length ≤ 5)
    ∧ (∀ x ∈ kw, ∃ b ∈ trendBatches kw, x ∈ b) := by
  refine ⟨?_, by simp [trendBatches], ?_, ?_, ?_⟩
  · simp only [trendBatches, List.length_cons, restBatches_length, List.length_drop]
    omega
  · intro i b hib hi
    obtain ⟨j, rfl⟩ : ∃ j, i = j + 1 := ⟨i - 1, (Nat.succ_pred_eq_of_pos hi).symm⟩
    simp only [trendBatches, List.getElem?_cons_succ] at hib
    have hb := restBatches_get _ _ _ _ hib
    have hdd : (kw.drop 5).drop (4 * j) = kw.drop (5 + 4 * ((j + 1) - 1)) := by
      rw [List.drop_drop]
      have h45 : 5 + 4 * j = 5 + 4 * ((j + 1) - 1) := by omega
      rw [h45]
    rw [hb, hdd]
  · intro b hb
    simp only [trendBatches, List.mem_cons] at hb
    rcases hb with h1 | h1
    · rw [h1]
      exact List.length_take_le 5 kw
    · rw [restBatches_eq_map] at h1
      obtain ⟨k, _, hbk⟩ := List.mem_map.mp h1
      rw [← hbk]
      simp only [List.length_cons]
      have := List.length_take_le 4 ((kw.drop 5).drop (4 * k))
      omega
  · intro x hx
    have hsplit : x ∈ kw.take 5 ++ kw.drop 5 := by
      rw [List.take_append_drop]; exact hx
    rcases List.mem_append.mp hsplit with h1 | h1
    · exact ⟨kw.take 5, List.mem_cons_self _ _, h1⟩
    · obtain ⟨b, hb, hxb⟩ := restBatches_cover (kw.headD "") (kw.drop 5) x h1
      exact ⟨b, List.mem_cons_of_mem _ hb, hxb⟩

/-- The 7-keyword end-to-end scenario list of the spec. -/
def kw7c2 : List String := ["A", "B", "C", "D", "E", "F", "G"]

theorem c2_batching_witness :
    5 < kw7c2.length
    ∧ (trendBatches kw7c2).length = 1 + (kw7c2.length - 5 + 3) / 4 :=
  ⟨by decide, (c2_batching kw7c2 (by decide)).1⟩

/-! ## Claim C4: the time window is hardcoded, not a parameter -/

theorem stepBatch_api_congr (api1 api2 : TrendApi) (anchor : String)
    (h : ∀ b, api1 b "now 7-d" = api2 b "now 7-d") (st : FetchState)
    (ib : Nat × List String) :
    stepBatch api1 anchor st ib = stepBatch api2 anchor st ib := by
  unfold stepBatch
  rw [h ib.2]

theorem foldlM_stepBatch_congr (api1 api2 : TrendApi) (anchor : String)
    (h : ∀ b, api1 b "now 7-d" = api2 b "now 7-d") :
    ∀ (l : List (Nat × List String)) (st : FetchState),
      l.foldlM (stepBatch api1 anchor) st = l.foldlM (stepBatch api2 anchor) st := by
  intro l
  induction l with
  | nil => intro st; rfl
  | cons p ps ih =>
    intro st
    rw [List.foldlM_cons, List.foldlM_cons, stepBatch_api_congr api1 api2 anchor h st p]
    cases stepBatch api2 anchor st p with
    | error e => rfl
    | ok st1 => exact ih st1

/-- Claim C4 (amended): `get_netflix_trends` takes only the keyword list —
there is no time-window parameter — and every request it issues carries
the fixed timeframe `"now 7-d"`: its result depends on the external API
only through the API's behaviour at timeframe `"now 7-d"`.  The four
supported ranges exist only in the separate custom-query UI path. -/
theorem c4_amended_fixed_timeframe (api1 api2 : TrendApi)
    (keywordsOpt : Option (List String))
    (h : ∀ b, api1 b "now 7-d" = api2 b "now 7-d") :
    get_netflix_trends_E api1 keywordsOpt = get_netflix_trends_E api2 keywordsOpt
    ∧ get_netflix_trends api1 keywordsOpt = get_netflix_trends api2 keywordsOpt := by
  have hE : get_netflix_trends_E api1 keywordsOpt = get_netflix_trends_E api2 keywordsOpt := by
    unfold get_netflix_trends_E
    by_cases hl : (keywordsOpt.getD defaultKeywords).length ≤ 5
    · rw [if_pos hl, if_pos hl, h (keywordsOpt.getD defaultKeywords)]
    · rw [if_neg hl, if_neg hl]
      simp only [foldlM_stepBatch_congr api1 api2
        ((keywordsOpt.getD defaultKeywords).headD "") h]
  refine ⟨hE, ?_⟩
  unfold get_netflix_trends
  rw [hE]

/-- DataFrame returned by the C4 APIs. -/
def dfW4 : DF := ⟨[0], [("A", fun _ => 1)]⟩

/-- An API that succeeds only when asked for the "last 12 months" range. -/
def apiOnly12m : TrendApi :=
  fun _ tf => if tf = "today 12-m" then .ok dfW4 else .error "unexpected timeframe"

/-- An API that succeeds only when asked for the "last 7 days" range. -/
def apiOnly7d : TrendApi :=
  fun _ tf => if tf = "now 7-d" then .ok dfW4 else .error "unexpected timeframe"

/-- Claim C4, counterexample: `"today 12-m"` is one of the supported
ranges of the spec's contract, yet an API that accepts only that range
makes the fetcher fail — every request the fetcher issues carries the
hardcoded `"now 7-d"`, and the function has no time-window argument at
all (see its signature), so no window is ever passed through. -/
theorem c4_counterexample :
    "today 12-m" ∈ supportedTimeframes
    ∧ get_netflix_trends apiOnly12m (some ["A"]) = none
    ∧ (get_netflix_trends apiOnly7d (some ["A"])).isSome = true :=
  ⟨by decide, rfl, rfl⟩

/-- Two different APIs agreeing at `"now 7-d"` only. -/
def apiW4a : TrendApi :=
  fun _ tf => if tf = "now 7-d" then .ok dfW4 else .error "unexpected timeframe"

/-- Totally successful API; agrees with `apiW4a` at `"now 7-d"`. -/
def apiW4b : TrendApi := fun _ _ => .ok dfW4

theorem c4_amended_fixed_timeframe_witness :
    get_netflix_trends_E apiW4a (some ["A"]) = get_netflix_trends_E apiW4b (some ["A"])
    ∧ get_netflix_trends apiW4a (some ["A"]) = get_netflix_trends apiW4b (some ["A"]) :=
  c4_amended_fixed_timeframe apiW4a apiW4b (some ["A"]) (fun _ => rfl)

/-! ## Claim C1: column completeness of the output table -/

/-- Unfolding of the over-5-keywords path of `get_netflix_trends_E`. -/
theorem getE_gt5 (api : TrendApi) (kw : List String) (h5 : 5 < kw.length) :
    get_netflix_trends_E api (some kw)
      = match (trendBatches kw).enum.foldlM (stepBatch api (kw.headD "")) ⟨none, none⟩ with
        | .error e => .error e
        | .ok st =>
          match st.dfTotal with
          | none => .ok none
          | some d =>
            if d.empty then .ok none
            else
              match d.coerceNumericE with
              | .error e => .error e
              | .ok d2 => .ok (some (d2.reindexCols kw)) := by
  unfold get_netflix_trends_E
  simp only [Option.getD_some]
  rw [if_neg (by omega)]

/-- Unfolding of the at-most-5-keywords path of `get_netflix_trends_E`. -/
theorem getE_le5 (api : TrendApi) (kw : List String) (h5 : kw.length ≤ 5) :
    get_netflix_trends_E api (some kw)
      = match api kw "now 7-d" with
        | .error e => .error e
        | .ok interest =>
          if interest.empty then .ok none
          else .ok (some (interest.dropCol "isPartial")) := by
  unfold get_netflix_trends_E
  simp only [Option.getD_some]
  rw [if_pos h5]

/-- Claim C1 (amended): in the over-5-keywords path every returned table
has exactly the input keywords as its columns, in input order (implied:
missing ones were zero-filled by the reindex).  In the at-most-5 path no
reindexing happens: the function returns the API's table unchanged apart
from dropping `isPartial`, so a keyword the API omitted is simply
missing, and the column order is whatever the API returned. -/
theorem c1_amended_columns (api : TrendApi) (kw : List String) :
    (5 < kw.length →
      ∀ T, get_netflix_trends api (some kw) = some T → T.colNames = kw)
    ∧ (kw.length ≤ 5 →
      ∀ d, api kw "now 7-d" = .ok d →
        get_netflix_trends api (some kw)
          = if d.empty then none else some (d.dropCol "isPartial")) := by
  constructor
  · intro h5 T hT
    unfold get_netflix_trends at hT
    rw [getE_gt5 api kw h5] at hT
    cases hF : (trendBatches kw).enum.foldlM (stepBatch api (kw.headD "")) ⟨none, none⟩ with
    | error e =>
      rw [hF] at hT
      simp at hT
    | ok st =>
      simp only [hF] at hT
      cases hdt : st.dfTotal with
      | none => simp [hdt] at hT
      | some d =>
        simp only [hdt] at hT
        by_cases he : d.empty
        · simp [he] at hT
        · simp only [he, Bool.false_eq_true, if_false] at hT
          cases hco : d.coerceNumericE with
          | error e => simp [hco] at hT
          | ok d2 =>
            simp only [hco] at hT
            injection hT with h1
            rw [← h1]
            exact colNames_reindexCols _ kw
  · intro h5 d hd
    unfold get_netflix_trends
    rw [getE_le5 api kw h5]
    simp only [hd]
    by_cases he : d.empty
    · simp [he]
    · simp [he]

/-- A non-empty API result that omits the requested keyword `"B"`. -/
def dfOnlyA1 : DF := ⟨[0], [("A", fun _ => 1)]⟩

/-- API of the C1 counterexample. -/
def apiC1 : TrendApi := fun _ _ => .ok dfOnlyA1

/-- Claim C1, counterexample: for the 2-keyword list `["A", "B"]` (length
at most 5) and an API answering with a non-empty table holding only
column `"A"`, the fetcher returns a 1-column table: `"B"` is neither
present nor zero-filled, so the output does not have `len(keywords)`
columns. -/
theorem c1_counterexample :
    (get_netflix_trends apiC1 (some ["A", "B"])).map DF.colNames = some ["A"]
    ∧ ["A"] ≠ ["A", "B"] :=
  ⟨rfl, by decide⟩

/-- Keyword list of the C1 witness. -/
def kw6c1 : List String := ["A", "B", "C", "D", "E", "F"]

/-- API of the C1 witness: each call answers with exactly the requested
keywords as columns, constant 1. -/
def apiFullC1 : TrendApi := fun b _ => .ok ⟨[0], b.map (fun k => (k, fun _ => 1))⟩

theorem c1_amended_columns_witness :
    DF.colNames ((get_netflix_trends apiFullC1 (some kw6c1)).getD ⟨[], []⟩) = kw6c1
    ∧ get_netflix_trends apiC1 (some ["A", "B"])
        = if dfOnlyA1.empty then none else some (dfOnlyA1.dropCol "isPartial") := by
  constructor
  · have hs : (get_netflix_trends apiFullC1 (some kw6c1)).isSome = true := rfl
    cases hT : get_netflix_trends apiFullC1 (some kw6c1) with
    | none => simp [hT] at hs
    | some T =>
      exact (c1_amended_columns apiFullC1 kw6c1).1 (by decide) T hT
  · exact (c1_amended_columns apiC1 ["A", "B"]).2 (by decide) dfOnlyA1 rfl

/-! ## Claim C3: when the multi-batch fetcher returns absent -/

theorem enumFrom_fst_le {α : Type} : ∀ (n : Nat) (l : List α) (p : Nat × α),
    p ∈ List.enumFrom n l → n ≤ p.1 := by
  intro n l
  induction l generalizing n with
  | nil => intro p hp; simp [List.enumFrom] at hp
  | cons a as ih =>
    intro p hp
    have hp2 : p ∈ (n, a) :: List.enumFrom (n + 1) as := hp
    rcases List.mem_cons.mp hp2 with h | h
    · subst h; exact Nat.le_refl n
    · exact Nat.le_of_succ_le (ih (n + 1) p h)

/-- A later batch (`i ≠ 0`) processed while no baseline is recorded either
raises or leaves the state unchanged. -/
theorem stepBatch_none_baseline (api : TrendApi) (anchor : String)
    (st : FetchState) (p : Nat × List String)
    (hp : p.1 ≠ 0) (hb : st.baseline = none) :
    stepBatch api anchor st p = .ok st
    ∨ ∃ e, stepBatch api anchor st p = .error e := by
  cases hap : api p.2 "now 7-d" with
  | error e =>
    right
    exact ⟨e, by unfold stepBatch; rw [hap]⟩
  | ok df0 =>
    left
    unfold stepBatch
    rw [hap]
    cases he : df0.empty with
    | true => simp [he]
    | false =>
      cases hgc : ((df0.dropCol "isPartial").getCol? anchor) with
      | none => simp [he, hp, hb, hgc]
      | some fa => simp [he, hp, hb, hgc]

theorem fold_baseline_none (api : TrendApi) (anchor : String) :
    ∀ (l : List (Nat × List String)) (st st' : FetchState),
      (∀ p ∈ l, p.1 ≠ 0) → st.baseline = none →
      l.foldlM (stepBatch api anchor) st = .ok st' → st' = st := by
  intro l
  induction l with
  | nil =>
    intro st st' _ _ h
    have h2 : (Except.ok st : Except String FetchState) = .ok st' := h
    injection h2 with h3
    exact h3.symm
  | cons p ps ih =>
    intro st st' hp hb h
    rw [List.foldlM_cons] at h
    rcases stepBatch_none_baseline api anchor st p (hp p (List.mem_cons_self _ _)) hb with
      hs | ⟨e, hs⟩
    · rw [hs] at h
      have h2 : ps.foldlM (stepBatch api anchor) st = .ok st' := h
      exact ih st st' (fun q hq => hp q (List.mem_cons_of_mem _ hq)) hb h2
    · rw [hs] at h
      simp only [Bind.bind, Except.bind] at h
      cases h

/-- A later batch (`i ≠ 0`) either leaves the state unchanged or merges a
scaled table onto the existing accumulated table, keeping the baseline. -/
theorem stepBatch_total_preserved (api : TrendApi) (anchor : String)
    (st : FetchState) (p : Nat × List String) (st1 : FetchState)
    (hp : p.1 ≠ 0) (h : stepBatch api anchor st p = .ok st1) :
    st1 = st
    ∨ ∃ dt x, st.dfTotal = some dt ∧ st1 = ⟨some (dt.concatCols x), st.baseline⟩ := by
  unfold stepBatch at h
  cases hap : api p.2 "now 7-d" with
  | error e =>
    simp only [hap] at h
    simp at h
  | ok df0 =>
    simp only [hap] at h
    cases he : df0.empty with
    | true =>
      rw [he] at h
      simp at h
      left; exact h.symm
    | false =>
      rw [he] at h
      simp only [Bool.false_eq_true, if_false] at h
      rw [if_neg hp] at h
      cases hgc : ((df0.dropCol "isPartial").getCol? anchor) with
      | none =>
        rw [hgc] at h
        cases hbl : st.baseline with
        | none => rw [hbl] at h; simp at h; left; exact h.symm
        | some bl => rw [hbl] at h; simp at h; left; exact h.symm
      | some fa =>
        rw [hgc] at h
        cases hbl : st.baseline with
        | none => rw [hbl] at h; simp at h; left; exact h.symm
        | some bl =>
          rw [hbl] at h
          cases hdt : st.dfTotal with
          | none => rw [hdt] at h; simp at h
          | some dt =>
            rw [hdt] at h
            injection h with h1
            right
            exact ⟨dt, scaleBatchDF (df0.dropCol "isPartial") anchor
              (batchScale bl.mean
                (Series.mean ⟨(df0.dropCol "isPartial").idx, fa⟩)), rfl, h1.symm⟩

theorem concatCols_empty_false (d x : DF) (h : d.empty = false) :
    (d.concatCols x).empty = false := by
  unfold DF.empty at h ⊢
  unfold DF.concatCols
  rcases hi : d.idx with _ | ⟨a, idxs⟩
  · rw [hi] at h; simp at h
  · rcases hc : d.cols with _ | ⟨p, colss⟩
    · rw [hc] at h; simp at h
    · simp

theorem fold_dfTotal_nonempty (api : TrendApi) (anchor : String) :
    ∀ (l : List (Nat × List String)) (st st' : FetchState) (d : DF),
      (∀ p ∈ l, p.1 ≠ 0) → st.dfTotal = some d → d.empty = false →
      l.foldlM (stepBatch api anchor) st = .ok st' →
      ∃ d', st'.dfTotal = some d' ∧ d'.empty = false := by
  intro l
  induction l with
  | nil =>
    intro st st' d _ hdt hde h
    have h2 : (Except.ok st : Except String FetchState) = .ok st' := h
    injection h2 with h3
    exact ⟨d, h3 ▸ hdt, hde⟩
  | cons p ps ih =>
    intro st st' d hp hdt hde h
    rw [List.foldlM_cons] at h
    cases hs : stepBatch api anchor st p with
    | error e =>
      rw [hs] at h
      simp only [Bind.bind, Except.bind] at h
      cases h
    | ok st1 =>
      rw [hs] at h
      have h2 : ps.foldlM (stepBatch api anchor) st1 = .ok st' := h
      have hp1 : p.1 ≠ 0 := hp p (List.mem_cons_self _ _)
      rcases stepBatch_total_preserved api anchor st p st1 hp1 hs with h1 | ⟨dt, x, hdt2, hst1⟩
      · rw [h1] at h2
        exact ih st st' d (fun q hq => hp q (List.mem_cons_of_mem _ hq)) hdt hde h2
      · rw [hdt] at hdt2
        injection hdt2 with hdd
        subst hdd
        exact ih st1 st' (d.concatCols x) (fun q hq => hp q (List.mem_cons_of_mem _ hq))
          (by rw [hst1]) (concatCols_empty_false d x hde) h2

/-- An empty table stays empty when a column label is dropped. -/
theorem dropCol_empty_of_empty (d : DF) (c : String) (h : d.empty = true) :
    (d.dropCol c).empty = true := by
  unfold DF.empty at h ⊢
  unfold DF.dropCol
  rcases Bool.or_eq_true_iff.mp h with h1 | h1
  · simp [h1]
  · have : d.cols = [] := List.isEmpty_iff.mp h1
    simp [this]

/-- Claim C3 (amended): for keyword lists of length > 5, whenever the
body completes without raising (hypothesis `hE` — all API calls
succeeded and the final per-column numeric coercion did not hit a
duplicated column label, which raises `TypeError` and also yields absent
through the handler), the fetcher returns absent if and only if the
*first* batch produced no usable data (its result, after dropping
`isPartial`, is empty).  Data produced by later batches alone cannot
prevent the absent result, because an empty first batch leaves no base
table and no baseline, so every later batch is skipped. -/
theorem c3_amended_first_batch (api : TrendApi) (kw : List String)
    (r : Option DF) (d0 : DF) (h5 : 5 < kw.length)
    (hE : get_netflix_trends_E api (some kw) = .ok r)
    (h0 : api (kw.take 5) "now 7-d" = .ok d0) :
    r.isSome = !(d0.dropCol "isPartial").empty := by
  rw [getE_gt5 api kw h5] at hE
  have henum : (trendBatches kw).enum
      = (0, kw.take 5) :: List.enumFrom 1 (restBatches (kw.headD "") (kw.drop 5)) := rfl
  rw [henum, List.foldlM_cons] at hE
  have hidx : ∀ p ∈ List.enumFrom 1 (restBatches (kw.headD "") (kw.drop 5)), p.1 ≠ 0 := by
    intro p hp
    have := enumFrom_fst_le 1 _ p hp
    omega
  by_cases hde : d0.empty = true
  · have hstep : stepBatch api (kw.headD "") ⟨none, none⟩ (0, kw.take 5)
        = .ok ⟨none, none⟩ := by
      unfold stepBatch
      simp only [h0]
      simp [hde]
    rw [hstep] at hE
    simp only [Bind.bind, Except.bind] at hE
    cases hF : (List.enumFrom 1 (restBatches (kw.headD "") (kw.drop 5))).foldlM
        (stepBatch api (kw.headD "")) ⟨none, none⟩ with
    | error e => simp only [hF] at hE; simp at hE
    | ok st' =>
      have hst' : st' = ⟨none, none⟩ :=
        fold_baseline_none api (kw.headD "") _ ⟨none, none⟩ st' hidx rfl hF
      rw [hst'] at hF
      simp only [hF] at hE
      simp at hE
      rw [← hE, dropCol_empty_of_empty d0 "isPartial" hde]
      rfl
  · have hde' : d0.empty = false := by
      revert hde; cases d0.empty <;> simp
    have hstep : stepBatch api (kw.headD "") ⟨none, none⟩ (0, kw.take 5)
        = .ok ⟨some (d0.dropCol "isPartial"),
               ((d0.dropCol "isPartial").getCol? (kw.headD "")).map
                 (fun f => ⟨(d0.dropCol "isPartial").idx, f⟩)⟩ := by
      unfold stepBatch
      simp only [h0]
      simp [hde']
    rw [hstep] at hE
    simp only [Bind.bind, Except.bind] at hE
    by_cases hc : (d0.dropCol "isPartial").empty = true
    · have hidxne : d0.idx.isEmpty = false := by
        unfold DF.empty at hde'
        exact (Bool.or_eq_false_iff.mp hde').1
      have hcols : (d0.dropCol "isPartial").cols = [] := by
        unfold DF.empty at hc
        rcases Bool.or_eq_true_iff.mp hc with h1 | h1
        · exfalso
          unfold DF.dropCol at h1
          simp only at h1
          rw [hidxne] at h1
          cases h1
        · exact List.isEmpty_iff.mp h1
      have hbl : ((d0.dropCol "isPartial").getCol? (kw.headD "")) = none := by
        unfold DF.getCol?
        rw [hcols]
        rfl
      rw [hbl] at hE
      simp only [Option.map_none'] at hE
      cases hF : (List.enumFrom 1 (restBatches (kw.headD "") (kw.drop 5))).foldlM
          (stepBatch api (kw.headD "")) ⟨some (d0.dropCol "isPartial"), none⟩ with
      | error e => simp only [hF] at hE; simp at hE
      | ok st' =>
        have hst' : st' = ⟨some (d0.dropCol "isPartial"), none⟩ :=
          fold_baseline_none api (kw.headD "") _ _ st' hidx rfl hF
        rw [hst'] at hF
        simp only [hF] at hE
        simp [hc] at hE
        rw [← hE, hc]
        rfl
    · have hc' : (d0.dropCol "isPartial").empty = false := by
        revert hc; cases (d0.dropCol "isPartial").empty <;> simp
      cases hF : (List.enumFrom 1 (restBatches (kw.headD "") (kw.drop 5))).foldlM
          (stepBatch api (kw.headD ""))
          ⟨some (d0.dropCol "isPartial"),
            ((d0.dropCol "isPartial").getCol? (kw.headD "")).map
              (fun f => ⟨(d0.dropCol "isPartial").idx, f⟩)⟩ with
      | error e => simp only [hF] at hE; simp at hE
      | ok st' =>
        obtain ⟨d', hd', hne⟩ := fold_dfTotal_nonempty api (kw.headD "") _ _ st'
          (d0.dropCol "isPartial") hidx rfl hc' hF
        simp only [hF] at hE
        rw [hd'] at hE
        simp only [hne, Bool.false_eq_true, if_false] at hE
        cases hco : d'.coerceNumericE with
        | error e => simp [hco] at hE
        | ok d2 =>
          simp only [hco] at hE
          simp at hE
          rw [← hE, hc']
          rfl

/-- Keyword list of the C3 counterexample and witness (length 6 > 5). -/
def kw6c3 : List String := ["A", "B", "C", "D", "E", "F"]

/-- Empty result handed to the first batch of the C3 counterexample. -/
def dfEmptyC3 : DF := ⟨[], []⟩

/-- Non-empty result handed to the second batch of the C3 counterexample. -/
def dfAFC3 : DF := ⟨[0], [("A", fun _ => 1), ("F", fun _ => 2)]⟩

/-- API of the C3 counterexample: the 5-keyword first batch gets an empty
result, the 2-keyword second batch gets data. -/
def apiC3 : TrendApi :=
  fun b _ => if b.length = 5 then .ok dfEmptyC3 else .ok dfAFC3

/-- Keyword list with a duplicated keyword split across batches:
batch 1 = `[A, B, C, D, E]`, batch 2 = `[A, B]`. -/
def kwDupC3 : List String := ["A", "B", "C", "D", "E", "B"]

/-- First batch's result for the duplicate-keyword trace. -/
def dfBatch1C3 : DF :=
  ⟨[0], [("A", fun _ => 1), ("B", fun _ => 1), ("C", fun _ => 1),
         ("D", fun _ => 1), ("E", fun _ => 1)]⟩

/-- Second batch's result for the duplicate-keyword trace. -/
def dfBatch2C3 : DF := ⟨[0], [("A", fun _ => 1), ("B", fun _ => 1)]⟩

/-- API of the duplicate-keyword trace: both batches succeed with exactly
the requested keywords as columns. -/
def apiDupC3 : TrendApi :=
  fun b _ => if b.length = 5 then .ok dfBatch1C3 else .ok dfBatch2C3

/-- Claim C3, counterexample: "absent iff no batch produced data" is
false in both directions that matter.  With 6 keywords, batch 1
(`[A..E]`) returns empty while batch 2 (`[A, F]`) returns a non-empty
table, yet the fetcher returns absent — a later batch's data cannot
rescue the result once batch 1 was empty.  And with the duplicated
keyword list `[A, B, C, D, E, B]`, both batches succeed non-empty, but
the line-82 merge leaves two `B` columns, the coercion loop of lines
89-90 raises `TypeError` on the duplicated label, and the handler again
returns absent — so even a non-empty first batch does not guarantee a
table. -/
theorem c3_counterexample :
    get_netflix_trends apiC3 (some kw6c3) = none
    ∧ trendBatches kw6c3 = [["A", "B", "C", "D", "E"], ["A", "F"]]
    ∧ apiC3 ["A", "F"] "now 7-d" = .ok dfAFC3
    ∧ dfAFC3.empty = false
    ∧ get_netflix_trends apiDupC3 (some kwDupC3) = none
    ∧ get_netflix_trends_E apiDupC3 (some kwDupC3) = .error "TypeError"
    ∧ apiDupC3 ["A", "B", "C", "D", "E"] "now 7-d" = .ok dfBatch1C3
    ∧ dfBatch1C3.empty = false :=
  ⟨rfl, rfl, rfl, rfl, rfl, rfl, rfl, rfl⟩

/-- First batch's result for the C3 witness. -/
def dfW3 : DF := ⟨[0], (kw6c3.take 5).map (fun k => (k, fun _ => 1))⟩

/-- API of the C3 witness: each call succeeds with exactly the requested
keywords as columns, constant 1. -/
def apiW3 : TrendApi := fun b _ => .ok ⟨[0], b.map (fun k => (k, fun _ => 1))⟩

theorem c3_amended_first_batch_witness :
    (match get_netflix_trends_E apiW3 (some kw6c3) with
     | .ok r => r.isSome = !(dfW3.dropCol "isPartial").empty
     | .error _ => False) := by
  cases hE : get_netflix_trends_E apiW3 (some kw6c3) with
  | error e =>
    have hok : (get_netflix_trends_E apiW3 (some kw6c3)).isOk = true := rfl
    rw [hE] at hok
    cases hok
  | ok r =>
    exact c3_amended_first_batch apiW3 kw6c3 r dfW3 (by decide) hE rfl

/-! ## Claim C8: the snapshot selector -/

theorem foldl_pickStep_some (tids : List String) :
    ∀ q : Nat × String, ∃ p, tids.foldl pickStep (some q) = some p ∧ q.1 ≤ p.1 := by
  induction tids with
  | nil => intro q; exact ⟨q, rfl, Nat.le_refl _⟩
  | cons tid rest ih =>
    intro q
    rw [List.foldl_cons]
    cases hdc : datedCandidate tid with
    | none =>
      have hstep : pickStep (some q) tid = some q := by unfold pickStep; rw [hdc]
      rw [hstep]
      exact ih q
    | some dt =>
      by_cases hlt : q.1 < dt
      · have hstep : pickStep (some q) tid = some (dt, datasetRef ++ "." ++ tid) := by
          unfold pickStep; rw [hdc]; simp [hlt]
        rw [hstep]
        obtain ⟨p, hp, hle⟩ := ih (dt, datasetRef ++ "." ++ tid)
        exact ⟨p, hp, Nat.le_trans (Nat.le_of_lt hlt) hle⟩
      · have hstep : pickStep (some q) tid = some q := by
          unfold pickStep; rw [hdc]; simp [hlt]
        rw [hstep]
        exact ih q

theorem foldl_pickStep_none_iff (tids : List String) :
    tids.foldl pickStep none = none ↔ ∀ tid ∈ tids, datedCandidate tid = none := by
  induction tids with
  | nil => simp
  | cons tid rest ih =>
    rw [List.foldl_cons]
    cases hdc : datedCandidate tid with
    | none =>
      have hstep : pickStep none tid = none := by unfold pickStep; rw [hdc]
      rw [hstep, ih]
      constructor
      · intro hall t ht
        rcases List.mem_cons.mp ht with h1 | h1
        · rw [h1]; exact hdc
        · exact hall t h1
      · intro hall t ht
        exact hall t (List.mem_cons_of_mem _ ht)
    | some dt =>
      have hstep : pickStep none tid = some (dt, datasetRef ++ "." ++ tid) := by
        unfold pickStep; rw [hdc]
      rw [hstep]
      obtain ⟨p, hp, _⟩ := foldl_pickStep_some rest (dt, datasetRef ++ "." ++ tid)
      rw [hp]
      constructor
      · intro hh; cases hh
      · intro hall
        have := hall tid (List.mem_cons_self _ _)
        rw [hdc] at this
        cases this

theorem foldl_pickStep_mem (tids : List String) :
    ∀ (acc : Option (Nat × String)) (p : Nat × String),
      tids.foldl pickStep acc = some p →
      acc = some p
      ∨ ∃ tid ∈ tids, datedCandidate tid = some p.1 ∧ p.2 = datasetRef ++ "." ++ tid := by
  induction tids with
  | nil => intro acc p h; left; exact h
  | cons tid rest ih =>
    intro acc p h
    rw [List.foldl_cons] at h
    cases hdc : datedCandidate tid with
    | none =>
      have hstep : pickStep acc tid = acc := by unfold pickStep; rw [hdc]
      rw [hstep] at h
      rcases ih acc p h with h1 | ⟨t, ht, a, b⟩
      · left; exact h1
      · right; exact ⟨t, List.mem_cons_of_mem _ ht, a, b⟩
    | some dt =>
      cases acc with
      | none =>
        have hstep : pickStep none tid = some (dt, datasetRef ++ "." ++ tid) := by
          unfold pickStep; rw [hdc]
        rw [hstep] at h
        rcases ih _ p h with h1 | ⟨t, ht, a, b⟩
        · injection h1 with h2
          right
          exact ⟨tid, List.mem_cons_self _ _, by rw [← h2]; exact hdc, by rw [← h2]⟩
        · right; exact ⟨t, List.mem_cons_of_mem _ ht, a, b⟩
      | some q =>
        by_cases hlt : q.1 < dt
        · have hstep : pickStep (some q) tid = some (dt, datasetRef ++ "." ++ tid) := by
            unfold pickStep; rw [hdc]; simp [hlt]
          rw [hstep] at h
          rcases ih _ p h with h1 | ⟨t, ht, a, b⟩
          · injection h1 with h2
            right
            exact ⟨tid, List.mem_cons_self _ _, by rw [← h2]; exact hdc, by rw [← h2]⟩
          · right; exact ⟨t, List.mem_cons_of_mem _ ht, a, b⟩
        · have hstep : pickStep (some q) tid = some q := by
            unfold pickStep; rw [hdc]; simp [hlt]
          rw [hstep] at h
          rcases ih _ p h with h1 | ⟨t, ht, a, b⟩
          · left; exact h1
          · right; exact ⟨t, List.mem_cons_of_mem _ ht, a, b⟩

theorem foldl_pickStep_max (tids : List String) :
    ∀ (acc : Option (Nat × String)) (p : Nat × String),
      tids.foldl pickStep acc = some p →
      ∀ tid ∈ tids, ∀ d, datedCandidate tid = some d → d ≤ p.1 := by
  induction tids with
  | nil => intro acc p _ tid ht; cases ht
  | cons tid0 rest ih =>
    intro acc p h tid ht d hd
    rw [List.foldl_cons] at h
    rcases List.mem_cons.mp ht with h1 | h1
    · subst h1
      have hstep : ∃ q : Nat × String, pickStep acc tid = some q ∧ d ≤ q.1 := by
        unfold pickStep
        rw [hd]
        cases acc with
        | none => exact ⟨(d, datasetRef ++ "." ++ tid), rfl, Nat.le_refl _⟩
        | some q =>
          by_cases hlt : q.1 < d
          · exact ⟨(d, datasetRef ++ "." ++ tid), by simp [hlt], Nat.le_refl _⟩
          · exact ⟨q, by simp [hlt], Nat.le_of_not_lt hlt⟩
      obtain ⟨q, hq, hdq⟩ := hstep
      rw [hq] at h
      obtain ⟨p', hp', hqp⟩ := foldl_pickStep_some rest q
      rw [hp'] at h
      injection h with h2
      rw [← h2]
      exact Nat.le_trans hdq hqp
    · exact ih (pickStep acc tid0) p h tid h1 d hd

/-- Claim C8 (amended): with no date string (None or empty) and a
look-back of exactly 0, the selector enumerates the dataset's tables,
parses each `prediction_YYYYMMDD` suffix, and queries the table with the
latest valid date — ignoring every id whose suffix does not parse (such
as `prediction_latest`); it falls back to the `prediction_latest` alias
when the enumeration raises or when no id parses.  (A negative look-back,
however, skips the enumeration entirely — see the counterexample.) -/
theorem c8_amended_selector (dateStr : Option String) (tableExists : String → Bool)
    (datesToTry : List String) (tids : List String)
    (hf : dateStrFalsy dateStr = true) :
    (selectPredictionTable dateStr 0 (.error ()) tableExists datesToTry
        = datasetRef ++ ".prediction_latest")
    ∧ (pickLatestDated tids = none →
        selectPredictionTable dateStr 0 (.ok tids) tableExists datesToTry
          = datasetRef ++ ".prediction_latest")
    ∧ (∀ p, pickLatestDated tids = some p →
        selectPredictionTable dateStr 0 (.ok tids) tableExists datesToTry = p.2
        ∧ (∃ tid ∈ tids, datedCandidate tid = some p.1 ∧ p.2 = datasetRef ++ "." ++ tid)
        ∧ (∀ tid ∈ tids, ∀ d, datedCandidate tid = some d → d ≤ p.1)) := by
  refine ⟨?_, ?_, ?_⟩
  · unfold selectPredictionTable
    simp [hf]
  · intro hnone
    unfold selectPredictionTable
    simp [hf, hnone]
  · intro p hp
    refine ⟨?_, ?_, ?_⟩
    · unfold selectPredictionTable
      simp [hf, hp]
    · rcases foldl_pickStep_mem tids none p hp with h1 | h1
      · cases h1
      · exact h1
    · exact foldl_pickStep_max tids none p hp

/-- The dataset contents of the spec's selector scenario. -/
def tidsC8 : List String :=
  ["prediction_20250101", "prediction_20250115", "prediction_latest"]

/-- Claim C8, counterexample: the claim's condition is "neither an
explicit date nor a positive look-back" — but with no date string and a
*negative* look-back (`lookback_days = -1`) the code's guard
`lookback_days == 0` is false, so no enumeration happens (and
`date_str or lookback_days > 0` is also false, so no date-probing
either): the selector returns the `prediction_latest` alias even though
`prediction_20250115` exists and would be chosen by enumeration. -/
theorem c8_counterexample :
    selectPredictionTable none (-1) (.ok tidsC8) (fun _ => true) []
      = datasetRef ++ ".prediction_latest"
    ∧ pickLatestDated tidsC8 = some (20250115, datasetRef ++ ".prediction_20250115")
    ∧ datasetRef ++ ".prediction_latest" ≠ datasetRef ++ ".prediction_20250115" :=
  ⟨rfl, by decide, by decide⟩

theorem c8_amended_selector_witness :
    selectPredictionTable none 0 (.ok tidsC8) (fun _ => false) []
      = "data-model-final-project.predictions.prediction_20250115"
    ∧ selectPredictionTable none 0 (.error ()) (fun _ => false) []
      = datasetRef ++ ".prediction_latest" := by
  have h := c8_amended_selector none (fun _ => false) [] tidsC8 rfl
  constructor
  · exact (h.2.2 (20250115, datasetRef ++ ".prediction_20250115") (by decide)).1
  · exact h.1
